import Mathlib

/-!
Verification of the interactive masking engine of the Donky generative-fill
repository (src/components/CanvasEditor.tsx, src/types.ts).

The editor state, the stroke recorder transitions, the scale computation,
the pointer-coordinate mapping and the mask compositor are embedded as
executable Lean definitions translated from the TypeScript source.
Coordinates are rationals; a raster is a pixel function together with its
native dimensions; canvas stroking with round caps and joins is modelled as
the set of points within half the line width of the polyline.
-/

namespace Donky

/-- Point in native image space, from src/types.ts (interface Point). -/
structure Point where
  x : ℚ
  y : ℚ
deriving DecidableEq

/-- A committed stroke, from src/types.ts (interface DrawPath): an ordered
point list plus the brush size stored at commit time. -/
structure DrawPath where
  points : List Point
  brushSize : ℚ
deriving DecidableEq

/-- An RGBA pixel value, channels in 0..255. -/
structure RGBA where
  r : ℕ
  g : ℕ
  b : ℕ
  a : ℕ
deriving DecidableEq

/-- A raster: native dimensions plus a pixel function. -/
structure Raster where
  width : ℕ
  height : ℕ
  pix : ℕ → ℕ → RGBA

/-- Squared euclidean distance between two points. -/
def distSq (p q : Point) : ℚ :=
  (p.x - q.x) ^ 2 + (p.y - q.y) ^ 2

/-- Squared distance from point q to the segment with endpoints a and b
(the closest-point parameter is clamped to the segment). -/
def segDistSq (a b q : Point) : ℚ :=
  if a = b then distSq q a
  else
    let dx := b.x - a.x
    let dy := b.y - a.y
    let len2 := dx ^ 2 + dy ^ 2
    let t0 := ((q.x - a.x) * dx + (q.y - a.y) * dy) / len2
    let t := max 0 (min 1 t0)
    distSq q ⟨a.x + t * dx, a.y + t * dy⟩

/-- The segments traced by the canvas path of a stroke: the source does
moveTo(points[0]) and then lineTo for every point in order (so the very
first lineTo produces a zero-length segment, which under round caps covers
a disc and makes a single click render a dot). An empty point list builds
no path (the source guards on points.length > 0). -/
def segments : List Point → List (Point × Point)
  | [] => []
  | p :: rest => (p, p) :: List.zip (p :: rest) rest

/-- Whether the stroked path of a DrawPath (round caps and joins, line
width = brushSize) covers the point q: q is within brushSize/2 of some
segment of the polyline. -/
def coversPath (path : DrawPath) (q : Point) : Bool :=
  (segments path.points).any fun s =>
    decide (segDistSq s.1 s.2 q ≤ (path.brushSize / 2) ^ 2)

/-- Whether any stroke in the list covers the point q (union of coverage,
as the source strokes every path in turn under destination-out). -/
def coveredAny (paths : List DrawPath) (q : Point) : Bool :=
  paths.any fun p => coversPath p q

/-- Alpha erasure of one pixel: destination-out with an opaque stroke
zeroes the destination alpha where covered. -/
def eraseAlpha (c : RGBA) : RGBA :=
  { c with a := 0 }

/-- Sampling point of the pixel at integer coordinates (i, j). -/
def samplePt (i j : ℕ) : Point :=
  ⟨(i : ℚ), (j : ℚ)⟩

/-- The mask compositor, from generateMaskedImage in CanvasEditor.tsx
(lines 169-196): draw the source image, then stroke every committed path
under globalCompositeOperation destination-out, which zeroes the alpha of
every covered pixel and leaves all other pixels unchanged. -/
def generateMaskedImage (img : Raster) (paths : List DrawPath) : Raster :=
  { width := img.width
    height := img.height
    pix := fun i j =>
      if coveredAny paths (samplePt i j) = true then eraseAlpha (img.pix i j)
      else img.pix i j }

/-- A pixel of a raster is fully transparent. -/
def transparentAt (r : Raster) (i j : ℕ) : Prop :=
  (r.pix i j).a = 0

instance (r : Raster) (i j : ℕ) : Decidable (transparentAt r i j) :=
  inferInstanceAs (Decidable ((r.pix i j).a = 0))

/-- The scale computation from the image-load effect in CanvasEditor.tsx
(lines 43-45): scaleW = maxWidth / w, scaleH = maxHeight / h,
scaleFactor = Math.min(scaleW, scaleH, 1). -/
def computeScale (w h maxWidth maxHeight : ℚ) : ℚ :=
  min (min (maxWidth / w) (maxHeight / h)) 1

/-- A pointer event as seen by getCoordinates: a mouse event carries one
client position, a touch event carries a list of touches. -/
inductive PointerEvent where
  | mouse (clientX clientY : ℚ)
  | touch (touches : List (ℚ × ℚ))
deriving DecidableEq

/-- The coordinate mapping from getCoordinates in CanvasEditor.tsx
(lines 52-70), given the bounding rectangle origin and the scale: the
client position minus the origin, divided by the scale. For a touch event
the source reads e.touches[0] unconditionally; the none result models the
out-of-bounds access when the touches list is empty. -/
def getCoordinates (e : PointerEvent) (rectLeft rectTop scale : ℚ) :
    Option Point :=
  match e with
  | .mouse cx cy => some ⟨(cx - rectLeft) / scale, (cy - rectTop) / scale⟩
  | .touch [] => none
  | .touch (t :: _) =>
      some ⟨(t.1 - rectLeft) / scale, (t.2 - rectTop) / scale⟩

/-- Modelled from the spec: the display-space position of an image-space
point, displayCoord = imageCoord * scale, offset by the canvas origin.
The source only contains the inverse mapping (getCoordinates). -/
def toDisplaySpace (p : Point) (scale originX originY : ℚ) : ℚ × ℚ :=
  (p.x * scale + originX, p.y * scale + originY)

/-- The component state of CanvasEditor that the stroke recorder mutates:
paths, isDrawing, currentPath, and the brushSize prop currently supplied
by the parent. -/
structure EditorState where
  paths : List DrawPath
  isDrawing : Bool
  currentPath : List Point
  brushSize : ℚ
deriving DecidableEq

/-- startDrawing (lines 73-80): on a mapped coordinate, enter the drawing
state with a one-point current path; a null coordinate is a no-op. -/
def startDrawing (coords : Option Point) (s : EditorState) : EditorState :=
  match coords with
  | some c => { s with isDrawing := true, currentPath := [c] }
  | none => s

/-- draw (lines 82-100): while drawing, append the mapped coordinate to
the current path; otherwise a no-op. -/
def draw (coords : Option Point) (s : EditorState) : EditorState :=
  if s.isDrawing then
    match coords with
    | some c => { s with currentPath := s.currentPath ++ [c] }
    | none => s
  else s

/-- stopDrawing (lines 102-108): if drawing and the current path is
non-empty, commit it with the brushSize prop as it is at this moment;
then leave the drawing state and clear the current path. -/
def stopDrawing (s : EditorState) : EditorState :=
  { s with
    paths :=
      if s.isDrawing = true ∧ 0 < s.currentPath.length then
        s.paths ++ [⟨s.currentPath, s.brushSize⟩]
      else s.paths
    isDrawing := false
    currentPath := [] }

/-- The brushSize prop changing (the brush-size control is outside this
component; the prop value is read by stopDrawing and renderCanvas). -/
def setBrushSize (b : ℚ) (s : EditorState) : EditorState :=
  { s with brushSize := b }

/-- handleUndo (line 116): paths.slice(0, -1), i.e. drop the last stroke. -/
def handleUndo (s : EditorState) : EditorState :=
  { s with paths := s.paths.dropLast }

/-- handleClear (line 117): empty the paths. -/
def handleClear (s : EditorState) : EditorState :=
  { s with paths := [] }

/-- The effect on [imageSrc] (lines 30-33): when the source image changes,
reset paths and currentPath to empty before anything else happens. -/
def imageSrcEffect (s : EditorState) : EditorState :=
  { s with paths := [], currentPath := [] }

/-- The stroke list drawn by renderCanvas (lines 140-159): the committed
paths each at their stored brushSize, then the active path, if non-empty,
at the CURRENT brushSize prop. -/
def renderStrokes (s : EditorState) : List DrawPath :=
  s.paths ++
    (if 0 < s.currentPath.length then [⟨s.currentPath, s.brushSize⟩] else [])

/-- The export effect guard (lines 198-200): onExportImageForAI is called
with the composited mask only when imageDimensions.width > 0; the height
is not consulted. -/
def exportEffect (img : Raster) (paths : List DrawPath) : Option Raster :=
  if 0 < img.width then some (generateMaskedImage img paths) else none

/-- A concrete 1x1 opaque raster used to instantiate universally
quantified theorems at evaluable inputs. -/
def sampleImg : Raster :=
  { width := 1, height := 1, pix := fun _ _ => ⟨10, 20, 30, 255⟩ }

/-- A concrete one-point stroke at the origin with brush size 2. -/
def strokeA : DrawPath :=
  ⟨[⟨0, 0⟩], 2⟩

/-- A concrete one-point stroke away from the origin with brush size 2. -/
def strokeB : DrawPath :=
  ⟨[⟨5, 5⟩], 2⟩

/-- A raster whose stored height is zero but whose width is positive. -/
def degenerateImg : Raster :=
  { width := 1, height := 0, pix := fun _ _ => ⟨0, 0, 0, 255⟩ }

/-- Covering of an appended stroke list is the disjunction of the parts. -/
theorem coveredAny_append (S T : List DrawPath) (q : Point) :
    coveredAny (S ++ T) q = (coveredAny S q || coveredAny T q) := by
  simp [coveredAny, List.any_append]

/-- C1: compositing with an empty stroke history returns a raster
pixel-identical to the source, dimensions included, and after handleClear
empties the history the composite of the resulting paths equals the
unmodified source image at every pixel. -/
theorem composite_empty_identity (img : Raster) (s : EditorState)
    (i j : ℕ) :
    (generateMaskedImage img []).width = img.width ∧
    (generateMaskedImage img []).height = img.height ∧
    (generateMaskedImage img []).pix i j = img.pix i j ∧
    (generateMaskedImage img (handleClear s).paths).pix i j = img.pix i j := by
  refine ⟨rfl, rfl, ?_, ?_⟩ <;>
    simp [generateMaskedImage, handleClear, coveredAny]

/-- C4: handleUndo is the inverse of appending a stroke to the paths:
undo after append restores the original paths, undo on empty paths is a
no-op, and undo on a one-element history yields the empty history. -/
theorem undo_inverse (s : EditorState) (stroke : DrawPath) :
    (handleUndo { s with paths := s.paths ++ [stroke] }).paths = s.paths ∧
    (handleUndo { s with paths := [] }).paths = [] ∧
    (handleUndo { s with paths := [stroke] }).paths = [] := by
  refine ⟨?_, ?_, ?_⟩ <;> simp [handleUndo]

/-- C9: the effect that runs when imageSrc changes resets the stroke
history and the in-progress stroke to empty, so any render after the
change observes no strokes: renderStrokes of the reset state is empty and
the composited mask of the reset state equals the new source image. -/
theorem image_change_resets (s : EditorState) (img : Raster) (i j : ℕ) :
    (imageSrcEffect s).paths = [] ∧
    (imageSrcEffect s).currentPath = [] ∧
    renderStrokes (imageSrcEffect s) = [] ∧
    (generateMaskedImage img (imageSrcEffect s).paths).pix i j =
      img.pix i j := by
  refine ⟨rfl, rfl, ?_, ?_⟩ <;>
    simp [imageSrcEffect, renderStrokes, generateMaskedImage, coveredAny]

/-- C5: erasing is monotonic: every pixel fully transparent in the
composite over a stroke history S stays fully transparent when one more
stroke is appended; no stroke can un-erase pixels erased by another. -/
theorem composite_monotone (img : Raster) (S : List DrawPath)
    (s : DrawPath) (i j : ℕ)
    (h : transparentAt (generateMaskedImage img S) i j) :
    transparentAt (generateMaskedImage img (S ++ [s])) i j := by
  unfold transparentAt generateMaskedImage at h ⊢
  dsimp at h ⊢
  rw [coveredAny_append]
  cases hS : coveredAny S (samplePt i j) with
  | true => simp [eraseAlpha]
  | false =>
      rw [hS] at h
      simp at h
      cases hs : coversPath s (samplePt i j) <;>
        simp [coveredAny, hs, eraseAlpha, h]

/-- Evaluation helper: the one-point stroke at the origin covers the
origin (the zero-length segment gives distance 0, within brush radius). -/
theorem strokeA_covers_origin : coversPath strokeA (samplePt 0 0) = true := by
  simp only [coversPath, strokeA, segments, samplePt, List.zip_nil_right,
    List.any_cons, List.any_nil, segDistSq, distSq, Bool.or_false]
  norm_num

/-- Evaluation helper: the origin pixel of the sample composite over the
single stroke at the origin is fully transparent. -/
theorem sample_composite_transparent :
    transparentAt (generateMaskedImage sampleImg [strokeA]) 0 0 := by
  simp [transparentAt, generateMaskedImage, coveredAny,
    strokeA_covers_origin, eraseAlpha]

/-- Witness for C5 at a concrete input: the origin pixel erased by a
stroke history stays erased after appending another stroke. -/
theorem composite_monotone_witness :
    transparentAt (generateMaskedImage sampleImg ([strokeA] ++ [strokeB]))
      0 0 :=
  composite_monotone sampleImg [strokeA] strokeB 0 0
    sample_composite_transparent

/-- Coverage by some stroke of a list is invariant under permutation of
the list. -/
theorem coveredAny_perm {S T : List DrawPath} (hp : List.Perm S T)
    (q : Point) : coveredAny S q = coveredAny T q := by
  unfold coveredAny
  refine Bool.eq_iff_iff.mpr ?_
  simp only [List.any_eq_true]
  exact ⟨fun ⟨x, hx, hfx⟩ => ⟨x, hp.mem_iff.mp hx, hfx⟩,
    fun ⟨x, hx, hfx⟩ => ⟨x, hp.mem_iff.mpr hx, hfx⟩⟩

/-- C6: the mask is order-independent: composites over any two
permutations of a stroke history have the same fully-transparent pixels
(indeed pixel-identical rasters). -/
theorem composite_perm (img : Raster) (S T : List DrawPath)
    (hp : List.Perm S T) (i j : ℕ) :
    (transparentAt (generateMaskedImage img S) i j ↔
      transparentAt (generateMaskedImage img T) i j) ∧
    (generateMaskedImage img S).pix i j =
      (generateMaskedImage img T).pix i j := by
  unfold transparentAt generateMaskedImage
  dsimp
  rw [coveredAny_perm hp]
  exact ⟨Iff.rfl, rfl⟩

/-- Witness for C6 at a concrete input: swapping two strokes leaves the
composite pixel unchanged. -/
theorem composite_perm_witness :
    (transparentAt (generateMaskedImage sampleImg [strokeB, strokeA]) 0 0 ↔
      transparentAt (generateMaskedImage sampleImg [strokeA, strokeB]) 0 0) ∧
    (generateMaskedImage sampleImg [strokeB, strokeA]).pix 0 0 =
      (generateMaskedImage sampleImg [strokeA, strokeB]).pix 0 0 :=
  composite_perm sampleImg [strokeB, strokeA] [strokeA, strokeB]
    (List.Perm.swap strokeA strokeB []) 0 0

/-- C3: the scale computed on image load equals
min(maxWidth/imageWidth, maxHeight/imageHeight, 1), lies in (0, 1] (so
images smaller than the bounds are never upscaled), and the scaled image
fits both bounds. -/
theorem computeScale_spec (w h maxWidth maxHeight : ℚ) (hw : 1 ≤ w)
    (hh : 1 ≤ h) (hmw : 1 ≤ maxWidth) (hmh : 1 ≤ maxHeight) :
    computeScale w h maxWidth maxHeight =
      min (min (maxWidth / w) (maxHeight / h)) 1 ∧
    0 < computeScale w h maxWidth maxHeight ∧
    computeScale w h maxWidth maxHeight ≤ 1 ∧
    w * computeScale w h maxWidth maxHeight ≤ maxWidth ∧
    h * computeScale w h maxWidth maxHeight ≤ maxHeight := by
  have hw0 : (0 : ℚ) < w := lt_of_lt_of_le one_pos hw
  have hh0 : (0 : ℚ) < h := lt_of_lt_of_le one_pos hh
  have hmw0 : (0 : ℚ) < maxWidth := lt_of_lt_of_le one_pos hmw
  have hmh0 : (0 : ℚ) < maxHeight := lt_of_lt_of_le one_pos hmh
  refine ⟨rfl, ?_, min_le_right _ _, ?_, ?_⟩
  · exact lt_min (lt_min (div_pos hmw0 hw0) (div_pos hmh0 hh0)) one_pos
  · have h1 : computeScale w h maxWidth maxHeight ≤ maxWidth / w :=
      le_trans (min_le_left _ _) (min_le_left _ _)
    have h2 := (le_div_iff₀ hw0).mp h1
    calc w * computeScale w h maxWidth maxHeight
        = computeScale w h maxWidth maxHeight * w := mul_comm _ _
      _ ≤ maxWidth := h2
  · have h1 : computeScale w h maxWidth maxHeight ≤ maxHeight / h :=
      le_trans (min_le_left _ _) (min_le_right _ _)
    have h2 := (le_div_iff₀ hh0).mp h1
    calc h * computeScale w h maxWidth maxHeight
        = computeScale w h maxWidth maxHeight * h := mul_comm _ _
      _ ≤ maxHeight := h2

/-- Evaluation helper: the concrete side conditions for the scale
witness. -/
theorem scaleWitnessBounds :
    (1 : ℚ) ≤ 1600 ∧ (1 : ℚ) ≤ 1200 ∧ (1 : ℚ) ≤ 800 ∧ (1 : ℚ) ≤ 600 := by
  norm_num

/-- Witness for C3 at the spec scenario: a 1600x1200 image inside
800x600 bounds. -/
theorem computeScale_spec_witness :
    computeScale 1600 1200 800 600 =
      min (min ((800 : ℚ) / 1600) ((600 : ℚ) / 1200)) 1 ∧
    0 < computeScale 1600 1200 800 600 ∧
    computeScale 1600 1200 800 600 ≤ 1 ∧
    1600 * computeScale 1600 1200 800 600 ≤ 800 ∧
    1200 * computeScale 1600 1200 800 600 ≤ 600 :=
  computeScale_spec 1600 1200 800 600 scaleWitnessBounds.1
    scaleWitnessBounds.2.1 scaleWitnessBounds.2.2.1 scaleWitnessBounds.2.2.2

/-- C7: coordinate mapping round-trips: mapping an image-space point to
display space (multiply by scale, add the canvas origin) and back through
getCoordinates (subtract origin, divide by scale) returns the point
exactly, for any nonzero scale. -/
theorem coordinate_roundtrip (p : Point) (scale rectLeft rectTop : ℚ)
    (hs : scale ≠ 0) :
    getCoordinates
      (.mouse (toDisplaySpace p scale rectLeft rectTop).1
        (toDisplaySpace p scale rectLeft rectTop).2)
      rectLeft rectTop scale = some p := by
  simp only [getCoordinates, toDisplaySpace, add_sub_cancel_right,
    Option.some.injEq]
  cases p with
  | mk x y => simp [mul_div_assoc, div_self hs]

/-- Evaluation helper: one half is a nonzero scale. -/
theorem half_ne_zero_q : (1 / 2 : ℚ) ≠ 0 := by
  norm_num

/-- Witness for C7 at the spec scenario: at scale 1/2 the image point
(200, 0) maps to display (100, 0) and back to (200, 0). -/
theorem coordinate_roundtrip_witness :
    toDisplaySpace ⟨200, 0⟩ (1 / 2) 0 0 = ((100 : ℚ), (0 : ℚ)) ∧
    getCoordinates
      (.mouse (toDisplaySpace ⟨200, 0⟩ (1 / 2) 0 0).1
        (toDisplaySpace ⟨200, 0⟩ (1 / 2) 0 0).2)
      0 0 (1 / 2) = some ⟨200, 0⟩ :=
  ⟨by simp only [toDisplaySpace]; norm_num,
    coordinate_roundtrip ⟨200, 0⟩ (1 / 2) 0 0 half_ne_zero_q⟩

/-- C10: getCoordinates on a touch event with an empty touches list hits
the unchecked e.touches[0] access (modelled as none); it returns a point
for every event whose touches list, if any, is non-empty. -/
theorem getCoordinates_touch_totality :
    (∀ rectLeft rectTop scale : ℚ,
      getCoordinates (.touch []) rectLeft rectTop scale = none) ∧
    (∀ (e : PointerEvent) (rectLeft rectTop scale : ℚ),
      (∀ ts, e = .touch ts → ts ≠ []) →
      (getCoordinates e rectLeft rectTop scale).isSome = true) := by
  constructor
  · intro l t s
    rfl
  · intro e l t s hne
    cases e with
    | mouse cx cy => rfl
    | touch ts =>
        cases ts with
        | nil => exact absurd rfl (hne [] rfl)
        | cons a rest => rfl

/-- Witness for C10 at a concrete input: a one-touch event yields a
point. -/
theorem getCoordinates_touch_totality_witness :
    (getCoordinates (.touch [((3 : ℚ), (4 : ℚ))]) 0 0 1).isSome = true :=
  getCoordinates_touch_totality.2 (.touch [(3, 4)]) 0 0 1
    (fun ts hts => by cases hts; exact List.cons_ne_nil _ _)

/-- The editor state used to exhibit the mid-gesture brush change: brush
size 10 at gesture start, changed to 20 during the gesture. -/
def midGestureState : EditorState :=
  setBrushSize 20 (startDrawing (some ⟨0, 0⟩) ⟨[], false, [], 10⟩)

/-- Counterexample to C2: with the brush at 10 at gesture start and
changed to 20 mid-gesture, the committed stroke stores 20 and the live
overlay draws the active path at 20 — the gesture-start radius 10 is not
frozen. -/
theorem brush_midgesture_counterexample :
    (stopDrawing midGestureState).paths = [⟨[⟨0, 0⟩], 20⟩] ∧
    renderStrokes midGestureState = [⟨[⟨0, 0⟩], 20⟩] ∧
    (stopDrawing midGestureState).paths ≠ [⟨[⟨0, 0⟩], 10⟩] := by
  refine ⟨rfl, rfl, ?_⟩
  intro hcontra
  have h20 : (20 : ℚ) = 10 := congrArg DrawPath.brushSize
    (List.head_eq_of_cons_eq hcontra)
  norm_num at h20

/-- C2 amended: the brush radius of a stroke is the brushSize prop at the
moment the gesture ends: after a mid-gesture change to b, the live
overlay draws the active path at width b and stopDrawing commits the
stroke with radius b. -/
theorem stopDrawing_commits_current_brush (s : EditorState) (b : ℚ)
    (hd : s.isDrawing = true) (hne : 0 < s.currentPath.length) :
    (stopDrawing (setBrushSize b s)).paths =
      s.paths ++ [⟨s.currentPath, b⟩] ∧
    renderStrokes (setBrushSize b s) = s.paths ++ [⟨s.currentPath, b⟩] := by
  constructor <;> simp [stopDrawing, setBrushSize, renderStrokes, hd, hne]

/-- Witness for the amended C2 at a concrete input: a gesture started at
brush 10 and stopped after the brush moved to 20 commits radius 20. -/
theorem stopDrawing_commits_current_brush_witness :
    (stopDrawing (setBrushSize 20 ⟨[], true, [⟨0, 0⟩], 10⟩)).paths =
      ([] : List DrawPath) ++ [⟨[⟨0, 0⟩], 20⟩] ∧
    renderStrokes (setBrushSize 20 ⟨[], true, [⟨0, 0⟩], 10⟩) =
      ([] : List DrawPath) ++ [⟨[⟨0, 0⟩], 20⟩] :=
  stopDrawing_commits_current_brush ⟨[], true, [⟨0, 0⟩], 10⟩ 20 rfl
    (by decide)

/-- Counterexample to C8: a raster state whose stored height is 0 but
whose width is positive passes the export guard, which checks only the
width, so the compositor is invoked although a native dimension is not
positive. -/
theorem export_guard_counterexample :
    degenerateImg.height = 0 ∧ (exportEffect degenerateImg []).isSome = true :=
  ⟨rfl, rfl⟩

/-- A raster with zero width, as before any image has loaded. -/
def unloadedImg : Raster :=
  { width := 0, height := 0, pix := fun _ _ => ⟨0, 0, 0, 255⟩ }

/-- C8 amended: the export effect invokes the compositor exactly when the
stored native width is positive — zero width is a silent no-op (none, no
failure) and positive width exports the composited mask; the height is
not consulted. -/
theorem export_guard_width_only (img : Raster) (paths : List DrawPath) :
    (img.width = 0 → exportEffect img paths = none) ∧
    (0 < img.width →
      exportEffect img paths = some (generateMaskedImage img paths)) := by
  constructor
  · intro h0
    simp [exportEffect, h0]
  · intro hpos
    simp [exportEffect, hpos]

/-- Witness for the amended C8 at concrete inputs: the unloaded raster is
not exported, the loaded 1x1 raster is. -/
theorem export_guard_width_only_witness :
    exportEffect unloadedImg [] = none ∧
    exportEffect sampleImg [] = some (generateMaskedImage sampleImg []) :=
  ⟨(export_guard_width_only unloadedImg []).1 rfl,
    (export_guard_width_only sampleImg []).2 (by decide)⟩

end Donky
